import Mathlib

/-!
Shallow embedding of the job-orchestration core of the security-report
consolidation service (src/app/main.py and src/app/report_generator.py).

External collaborators are modelled as parameters:
* the AI completion client is an oracle `String → Nat → AIResult`
  (prompt, 0-indexed attempt number ↦ success text or failure message);
* `random.uniform(0,1)` is a parameter `rand : Nat → ℚ` (one sample per
  backoff), constrained by hypotheses `0 ≤ rand i ∧ rand i ≤ 1` where needed;
* text extraction is a parameter `extract : UploadFile → String`;
* the docx serializer is modelled structurally: `create_docx_report` produces
  the ordered list of headings/bullets/paragraphs that python-docx would
  serialize, rather than opaque bytes.

Mutation of the process-wide `jobs` dict by the background task is modelled
as a step trace (`Step`) folded over the job state with `applyStep`, in the
exact order the Python code performs appends and assignments.
-/

namespace RepoHealth

/-- Kind tag of a progress event: the `"type"` field of the dicts appended to
`job["status_updates"]` (`status`, `report`, `error`) plus the synthetic
`done` emitted only on the stream. -/
inductive EventKind where
  | status
  | report
  | error
  | done
deriving DecidableEq, Repr

/-- One progress event: `{"type": ..., "content": ...}` as appended by
`update_status` in `process_report_task`. -/
structure Event where
  kind : EventKind
  content : String
deriving DecidableEq, Repr

/-- One extracted input document: `{"filename": ..., "content": ...}` as built
by `upload_files_for_processing`. -/
structure FileInfo where
  filename : String
  content : String
deriving DecidableEq, Repr

/-- Job state, the value type of the process-wide `jobs` dict:
`{"files": ..., "status_updates": [], "is_complete": False, "report_content": None}`. -/
structure Job where
  files : List FileInfo
  status_updates : List Event
  is_complete : Bool
  report_content : Option String
deriving DecidableEq, Repr

/-- Outcome of one underlying AI completion attempt: either generated text
(Python `content if content else ""` collapses `None` to `""`, so a plain
string suffices) or a raised exception carrying a message. -/
inductive AIResult where
  | success (s : String)
  | failure (e : String)
deriving DecidableEq, Repr

/-- Token counter from `count_tokens`: `len(text) // 4`. -/
def count_tokens (text : String) : Nat :=
  text.length / 4

/-- Observable actions of `run_openai_with_retry`: an attempt of the
underlying call (with its 0-indexed attempt number) or a backoff sleep of the
given duration in seconds. -/
inductive RetryStep where
  | attemptCall (i : Nat)
  | backoff (t : ℚ)
deriving DecidableEq, Repr

/-- The retry loop of `run_openai_with_retry` from attempt `i` on, with the
number of attempts still available (`remaining = max_attempts - i`, so the
Python guard `attempt == max_attempts - 1` is `remaining = 1`, checked here
after peeling one attempt off): try the call; on failure, if this was the
last attempt propagate the failure, otherwise sleep `2^attempt + uniform(0,1)`
and continue.  Returns the result (`.ok` text or `.error` message) together
with the trace of attempts and sleeps.  The `.ok ""` at `remaining = 0`
mirrors the final `return ""` reached only when `max_attempts = 0`. -/
def retryFrom (call : Nat → AIResult) (rand : Nat → ℚ) (i : Nat) :
    Nat → Except String String × List RetryStep
  | 0 => (.ok "", [])
  | remaining + 1 =>
    match call i with
    | .success s => (.ok s, [.attemptCall i])
    | .failure e =>
      if remaining = 0 then
        (.error e, [.attemptCall i])
      else
        let p := retryFrom call rand (i + 1) remaining
        (p.1, .attemptCall i :: .backoff ((2 : ℚ) ^ i + rand i) :: p.2)

/-- `run_openai_with_retry(prompt, max_attempts)`: the retry loop starting at
attempt 0.  The prompt is implicit in the oracle `call`. -/
def run_openai_with_retry (call : Nat → AIResult) (rand : Nat → ℚ)
    (maxAttempts : Nat := 3) : Except String String × List RetryStep :=
  retryFrom call rand 0 maxAttempts

/-- Number of underlying-call attempts recorded in a retry trace. -/
def countCalls (l : List RetryStep) : Nat :=
  l.countP fun s => match s with | .attemptCall _ => true | _ => false

/-- The backoff durations recorded in a retry trace, in order. -/
def backoffs (l : List RetryStep) : List ℚ :=
  l.filterMap fun s => match s with | .backoff t => some t | _ => none

/-- Part of `PROMPT_TEMPLATE` before the single `\x7bconsolidated_content\x7d`
substitution point, reproduced verbatim from src/app/main.py. -/
def promptPre : String :=
  "\nYou are an expert security analyst AI. Your task is to analyze the following consolidated application security scan reports (which may include Mend, Fortify, Contrast, SonarQube, or similar tools). Your analysis must be comprehensive, actionable, and tailored for both technical and business stakeholders.\nYour assessment should be structured, data-driven, and visually engaging, using tables and graphs where possible. Draw clear, evidence-based conclusions and avoid generic or random recommendations.\n\nINPUT:\n\nConsolidated scan report content from up to four sources (at least one is mandatory).\n\n\nOUTPUT REQUIREMENTS:\n1. EXECUTIVE SUMMARY\n\nProvide a concise overview of the applicationâ€™s security posture.\nHighlight key risk indicators and trends observed across all scans.\nAssign an overall security score or rating (with justification).\nSummarize the most critical risks in a business-relevant manner.\n\n2. DETAILED FINDINGS\n\nList and describe all critical vulnerabilities, including their potential impact and exploitability.\nSummarize medium and low severity issues, grouping by type and frequency.\nIdentify recurring patterns or systemic weaknesses across scans.\nFlag likely false positives, explaining the rationale.\nUse tables to present vulnerabilities by severity, type, and affected components.\nWhere possible, include graphs (e.g., bar charts for vulnerability counts, pie charts for severity distribution).\n\n3. RISK ASSESSMENT\n\nPresent a risk prioritization matrix (e.g., heatmap or table) mapping vulnerabilities by likelihood and impact.\nAnalyze potential business impacts (e.g., data breach, compliance failure, operational disruption).\nDiscuss compliance implications (e.g., OWASP Top 10, PCI DSS, GDPR) and highlight any gaps.\n\n4. RECOMMENDATIONS\n\nProvide immediate actions for critical issues (with clear steps).\nOutline a short-term remediation plan for high and medium risks.\nSuggest long-term improvements to strengthen security posture (e.g., process, tooling, training).\nRecommend best practices tailored to the observed issues and technology stack.\nEnsure all recommendations are specific, actionable, and prioritized by risk and business impact.\n\n5. METRICS, TRENDS & VISUALIZATIONS\n\nPresent key metrics:\n\nVulnerability counts by severity, type, and affected modules.\nTrends over time (if historical data is present).\nComparison across different scan tools (highlighting discrepancies or tool-specific findings).\n\n\nUse visualizations (tables, bar/pie charts, trend lines) to make data easily digestible.\nHighlight any positive trends or improvements compared to previous scans (if data available).\n\n6. CONCLUSION & NEXT STEPS\n\nSummarize the top 3 actionable insights.\nRecommend next steps for both technical and business teams.\nSuggest follow-up assessments or monitoring if needed.\n\n\nADDITIONAL INSTRUCTIONS:\n\nBase all conclusions and recommendations strictly on the data provided. Do not generate generic or random suggestions.\nCite specific evidence from the reports to support your findings.\nUse clear, professional language suitable for both technical and executive audiences.\nWhere visualizations are suggested, describe them in Markdown (e.g., tables, chart descriptions) so they can be rendered or created by downstream tools.\nIf any required data is missing, clearly state the limitation and its impact on the analysis.\n\n\nINPUT DATA:\n"

/-- Part of `PROMPT_TEMPLATE` after the substitution point. -/
def promptPost : String :=
  "\nBegin your analysis below:\n"

/-- The fixed analysis prompt template `PROMPT_TEMPLATE` (its one placeholder
kept literally). -/
def PROMPT_TEMPLATE : String :=
  promptPre ++ "\x7bconsolidated_content\x7d" ++ promptPost

/-- `PROMPT_TEMPLATE.format(consolidated_content=c)`: the template has exactly
one substitution point and no other braces, so formatting is concatenation. -/
def formatPrompt (c : String) : String :=
  promptPre ++ c ++ promptPost

/-- Decimal digit grouping: given the reversed digit list of a number, insert
a comma after every third digit (working from the least significant end). -/
def revGroup : List Char → List Char
  | c1 :: c2 :: c3 :: c4 :: rest => c1 :: c2 :: c3 :: ',' :: revGroup (c4 :: rest)
  | l => l

/-- Python's `f"{n:,}"` for a natural number: thousands separated by commas. -/
def formatComma (n : Nat) : String :=
  String.mk (revGroup (toString n).toList.reverse).reverse

/-- Observable actions of the background task `process_report_task`, in the
order the Python code performs them: an `update_status` append, an invocation
of `run_openai_with_retry` with a given prompt and `max_attempts`, the
inter-document `asyncio.sleep`, the `job["report_content"]` assignment, and
the `finally` block's `job["is_complete"] = True`. -/
inductive Step where
  | emit (kind : EventKind) (content : String)
  | invoke (prompt : String) (maxAttempts : Nat)
  | pause (t : ℚ)
  | store (r : String)
  | markComplete
deriving DecidableEq, Repr

/-- Effect of one `Step` on the job's entry in the `jobs` dict. -/
def applyStep (j : Job) : Step → Job
  | .emit k c => { j with status_updates := j.status_updates ++ [⟨k, c⟩] }
  | .invoke _ _ => j
  | .pause _ => j
  | .store r => { j with report_content := some r }
  | .markComplete => { j with is_complete := true }

/-- The events an `update_status` call appends along a step trace. -/
def emitsOf (l : List Step) : List Event :=
  l.filterMap fun s => match s with | .emit k c => some ⟨k, c⟩ | _ => none

/-- Message of the initial status event. -/
def startMsg : String :=
  "Starting consolidation process. Summarizing individual files..."

/-- Message of the per-file status event, `f"Summarizing file: {filename}..."`. -/
def summarizingMsg (filename : String) : String :=
  "Summarizing file: " ++ filename ++ "..."

/-- The per-file summarization prompt
`f"Summarize all critical vulnerabilities from the file '{filename}'. TEXT: {content_str}"`. -/
def summaryPrompt (f : FileInfo) : String :=
  "Summarize all critical vulnerabilities from the file \x27" ++ f.filename
    ++ "\x27. TEXT: " ++ f.content

/-- The tagged entry appended to `all_summaries`:
`f"--- Summary from {filename} ---\n{summary}"`. -/
def taggedSummary (filename summary : String) : String :=
  "--- Summary from " ++ filename ++ " ---\n" ++ summary

/-- Message of the status event after all summaries. -/
def allSummariesMsg : String :=
  "All summaries created. Generating final consolidated report..."

/-- Message of the token-count status event,
`f"Final prompt created with ~{final_token_count:,} tokens. Sending to OpenAI..."`. -/
def tokenMsg (n : Nat) : String :=
  "Final prompt created with ~" ++ formatComma n ++ " tokens. Sending to OpenAI..."

/-- Content of the `report`-kind event: `update_status("Report content generated.", "report")`. -/
def reportDoneMsg : String :=
  "Report content generated."

/-- Message of the `ValueError` raised when the final call returns empty text. -/
def emptyRespMsg : String :=
  "The AI returned an empty response. This can be caused by content filters."

/-- The `except` block's `f"An error occurred during report processing: {e}"`. -/
def errorWrap (e : String) : String :=
  "An error occurred during report processing: " ++ e

/-- Result of one `run_openai_with_retry` invocation inside the task, for an
AI oracle keyed by prompt and attempt number and a backoff-jitter source
keyed the same way. -/
def callAI (oracle : String → Nat → AIResult) (rand : String → Nat → ℚ)
    (prompt : String) (maxAttempts : Nat) : Except String String :=
  (run_openai_with_retry (oracle prompt) (rand prompt) maxAttempts).1

/-- The per-file loop of `process_report_task`: for each file emit a status
event, invoke the retry wrapper on the summarization prompt with the default
`max_attempts = 3`, accumulate the tagged summary, and sleep 5 seconds.  A
failure propagates out of the loop (the steps performed so far are kept). -/
def summaryLoop (oracle : String → Nat → AIResult) (rand : String → Nat → ℚ) :
    List FileInfo → List Step × Except String (List String)
  | [] => ([], .ok [])
  | f :: rest =>
    match callAI oracle rand (summaryPrompt f) 3 with
    | .error e =>
      ([.emit .status (summarizingMsg f.filename), .invoke (summaryPrompt f) 3], .error e)
    | .ok s =>
      let p := summaryLoop oracle rand rest
      (.emit .status (summarizingMsg f.filename) :: .invoke (summaryPrompt f) 3
          :: .pause 5 :: p.1,
        match p.2 with
        | .error e => .error e
        | .ok l => .ok (taggedSummary f.filename s :: l))

/-- Full step trace of `process_report_task` on a job holding `files`:
the `try` body, with any failure routed to the `except` block's error event,
and the `finally` block's completion mark at the end. -/
def taskTrace (oracle : String → Nat → AIResult) (rand : String → Nat → ℚ)
    (files : List FileInfo) : List Step :=
  let p := summaryLoop oracle rand files
  Step.emit .status startMsg :: p.1 ++
    (match p.2 with
     | .error e => [.emit .error (errorWrap e), .markComplete]
     | .ok summaries =>
       let fp := formatPrompt (String.intercalate "\n\n" summaries)
       [.emit .status allSummariesMsg, .emit .status (tokenMsg (count_tokens fp)),
        .invoke fp 5] ++
         (match callAI oracle rand fp 5 with
          | .error e => [.emit .error (errorWrap e), .markComplete]
          | .ok r =>
            if r = "" then [.emit .error (errorWrap emptyRespMsg), .markComplete]
            else [.store r, .emit .report reportDoneMsg, .markComplete]))

/-- `process_report_task(job_id)`: the job's final state together with the
step trace that produced it. -/
def process_report_task (oracle : String → Nat → AIResult)
    (rand : String → Nat → ℚ) (job : Job) : Job × List Step :=
  ((taskTrace oracle rand job.files).foldl applyStep job,
    taskTrace oracle rand job.files)

/-- Structural model of one block that `create_docx_report` adds to the
document: a heading at a given level, a bulleted paragraph, or a plain
paragraph.  The python-docx byte serialization is the external collaborator;
the block sequence is what the function determines. -/
inductive DocxBlock where
  | heading (level : Nat) (text : String)
  | bullet (text : String)
  | para (text : String)
deriving DecidableEq, Repr

/-- Python `s.split('\n')` on the character list: every newline separates,
empty pieces kept, `"".split('\n') == [""]`. -/
def splitOnNewline : List Char → List (List Char)
  | [] => [[]]
  | c :: rest =>
    if c = '\n' then [] :: splitOnNewline rest
    else
      match splitOnNewline rest with
      | [] => [[c]]
      | h :: t => (c :: h) :: t

/-- Python `line.strip()` on the character list (whitespace per
`Char.isWhitespace`, which covers the ASCII whitespace occurring here). -/
def stripChars (l : List Char) : List Char :=
  ((l.dropWhile Char.isWhitespace).reverse.dropWhile Char.isWhitespace).reverse

/-- `create_docx_report` from src/app/report_generator.py: a fixed title
heading, then one block per non-empty stripped line of the markdown, mapped
by its leading marker. -/
def create_docx_report (report_markdown : String) : List DocxBlock :=
  DocxBlock.heading 0 "Consolidated Security Report" ::
    (splitOnNewline report_markdown.data).filterMap fun rawLine =>
      let line := stripChars rawLine
      if "### ".data.isPrefixOf line then some (.heading 3 ⟨line.drop 4⟩)
      else if "## ".data.isPrefixOf line then some (.heading 2 ⟨line.drop 3⟩)
      else if "# ".data.isPrefixOf line then some (.heading 1 ⟨line.drop 2⟩)
      else if "* ".data.isPrefixOf line || "- ".data.isPrefixOf line then
        some (.bullet ⟨line.drop 2⟩)
      else if line.length > 0 then some (.para ⟨line⟩)
      else none

/-- The process-wide `jobs` dict, as an association list (newest first). -/
def Store : Type := List (String × Job)

/-- Dictionary lookup `jobs[job_id]` / `job_id in jobs`. -/
def getJob (store : Store) (jobId : String) : Option Job :=
  (List.find? (fun p => p.1 == jobId) store).map (fun p => p.2)

/-- One optional multipart file field (`UploadFile = File(None)`): a filename
(Python `None` and `""` are both falsy, so `""` stands for both) and the raw
payload handed to the text-extraction collaborator. -/
structure UploadFile where
  filename : String
  payload : String
deriving DecidableEq, Repr

/-- `files = [f for f in [file1, file2, file3, file4] if f and f.filename]`. -/
def collectFiles (f1 f2 f3 f4 : Option UploadFile) : List UploadFile :=
  ([f1, f2, f3, f4].filterMap id).filter fun f => f.filename != ""

/-- `upload_files_for_processing`: 400 when no file field carries a filename;
otherwise extract each file's text, create a fresh job with empty event
sequence, `is_complete = False` and no report, schedule the background task
for it (the returned list of scheduled job ids models `BackgroundTasks`),
and answer with the job id.  `fresh` stands for `str(uuid.uuid4())`. -/
def upload_files_for_processing (store : Store) (fresh : String)
    (extract : UploadFile → String) (f1 f2 f3 f4 : Option UploadFile) :
    Except Nat (Store × String × List String) :=
  let files := collectFiles f1 f2 f3 f4
  if files.isEmpty then
    .error 400
  else
    let fileContents := files.map fun f => FileInfo.mk f.filename (extract f)
    .ok ((fresh, Job.mk fileContents [] false none) :: store, fresh, [fresh])

/-- Response of a successful download: the Content-Disposition filename and
the rendered document. -/
structure DownloadResp where
  filename : String
  doc : List DocxBlock
deriving DecidableEq, Repr

/-- `download_report(job_id)`: 404 when the id is unknown or
`jobs[job_id].get("report_content")` is falsy (`None` or `""`); otherwise the
rendered report under the deterministic attachment name. -/
def download_report (store : Store) (jobId : String) : Except Nat DownloadResp :=
  match getJob store jobId with
  | none => .error 404
  | some j =>
    match j.report_content with
    | none => .error 404
    | some r =>
      if r = "" then .error 404
      else
        .ok ⟨"consolidated_security_report_" ++ (jobId.take 8) ++ ".docx",
          create_docx_report r⟩

/-- One message pushed on the event stream: a serialized progress event, or
the synthetic `{'type': 'done'}`. -/
inductive StreamItem where
  | event (e : Event)
  | done
deriving DecidableEq, Repr

/-- The polling loop of `event_generator`, driven by the successive snapshots
of `(job["status_updates"], job["is_complete"])` it reads — one snapshot per
1-second polling cycle, the concurrent writer being the background task.  Per
cycle it yields the events past `last_sent_index`, advances the index, and on
observing the completion flag yields `done` and stops.  If the snapshots run
out first, the stream is still open (`false`). -/
def event_generator : List (List Event × Bool) → Nat → List StreamItem × Bool
  | [], _ => ([], false)
  | (evs, complete) :: rest, lastSentIndex =>
    let fresh := (evs.drop lastSentIndex).map StreamItem.event
    if complete then
      (fresh ++ [.done], true)
    else
      let p := event_generator rest evs.length
      (fresh ++ p.1, p.2)

/-- `stream_status(job_id)`: 404 when the job id is unknown, otherwise the
stream produced by `event_generator` starting at index 0 over the snapshots
the generator will observe.  Client disconnection is not modelled (the
`is_disconnected` check never fires). -/
def stream_status (store : Store) (jobId : String)
    (snaps : List (List Event × Bool)) : Except Nat (List StreamItem × Bool) :=
  if (getJob store jobId).isNone then .error 404
  else .ok (event_generator snaps 0)

/-- Whether an attempt outcome is a raised exception. -/
def isFailure : AIResult → Bool
  | .failure _ => true
  | .success _ => false

/-- The message of a failing attempt outcome (`""` for a success). -/
def failureMsg : AIResult → String
  | .failure e => e
  | .success _ => ""

/-- The retry trace of a run that fails on attempts `a, a+1, ..., a+k-1` and
succeeds on attempt `a+k`: each failed attempt is followed by its
`2^attempt + uniform(0,1)` backoff, the successful attempt ends the trace. -/
def expectedRetryTrace (rand : Nat → ℚ) : Nat → Nat → List RetryStep
  | a, 0 => [.attemptCall a]
  | a, k + 1 =>
    .attemptCall a :: .backoff ((2 : ℚ) ^ a + rand a) ::
      expectedRetryTrace rand (a + 1) k

/-- The steps the per-file loop performs for one document on its success
path: status event naming the file, retry-wrapper invocation with
`max_attempts = 3`, and the 5-second pause. -/
def perFileSteps (f : FileInfo) : List Step :=
  [.emit .status (summarizingMsg f.filename), .invoke (summaryPrompt f) 3, .pause 5]

/-- The final prompt when every per-file summary succeeded with text
`sm f`: the tagged summaries joined by `"\n\n"`, substituted into the
template. -/
def consolidatedPrompt (sm : FileInfo → String) (files : List FileInfo) : String :=
  formatPrompt (String.intercalate "\n\n"
    (files.map fun f => taggedSummary f.filename (sm f)))

/-- The steps after the final consolidation call, by its outcome: a failure
or an empty response yields an error event, a non-empty response stores the
report and emits the `report` event; the completion mark closes every
branch. -/
def finalSteps : Except String String → List Step
  | .error e => [.emit .error (errorWrap e), .markComplete]
  | .ok r =>
    if r = "" then [.emit .error (errorWrap emptyRespMsg), .markComplete]
    else [.store r, .emit .report reportDoneMsg, .markComplete]

/-- Steps that touch neither the stored report nor emit a `report` event. -/
def neutralStep : Step → Bool
  | .emit .report _ => false
  | .store _ => false
  | _ => true

/-- Whether a job has a non-empty stored report text. -/
def hasGoodContent (j : Job) : Bool :=
  match j.report_content with
  | some r => r != ""
  | none => false

/-- A step list is safe for the report/content invariant when, threading the
"non-empty report stored" flag through it, every `report` event is emitted
with the flag set and no store downgrades a set flag. -/
def safeSteps : Bool → List Step → Bool
  | _, [] => true
  | stored, s :: rest =>
    match s with
    | .emit .report _ => stored && safeSteps stored rest
    | .store r => (!stored || (r != "")) && safeSteps (r != "") rest
    | _ => safeSteps stored rest

/-- The invariant of claim C10 on a job state: a `report`-kind event in the
event sequence implies a non-empty stored report text. -/
def reportImpliesContent (j : Job) : Prop :=
  (∃ e ∈ j.status_updates, e.kind = EventKind.report) →
    ∃ r, j.report_content = some r ∧ r ≠ ""

/-- Snapshot chain hypothesis for the progress stream: starting from already
seen events `prev`, each polled snapshot extends the previous one
(append-only event sequence), every snapshot before the last shows the
completion flag false, and the last snapshot shows it true with final event
list `final`. -/
def GrowsTo : List Event → List (List Event × Bool) → List Event → Prop
  | _, [], _ => False
  | prev, (evs, true) :: rest, final =>
    (∃ t, evs = prev ++ t) ∧ rest = [] ∧ final = evs
  | prev, (evs, false) :: rest, final =>
    (∃ t, evs = prev ++ t) ∧ GrowsTo evs rest final

/-! ### Retry wrapper lemmas -/

lemma retryFrom_ok (call : Nat → AIResult) (rand : Nat → ℚ) :
    ∀ (k a rem : Nat) (s : String), k < rem →
      (∀ j, j < k → isFailure (call (a + j)) = true) →
      call (a + k) = .success s →
      retryFrom call rand a rem = (.ok s, expectedRetryTrace rand a k) := by
  intro k
  induction k with
  | zero =>
    intro a rem s hrem hf hs
    match rem, hrem with
    | rem + 1, _ =>
      have hs2 : call a = .success s := by simpa using hs
      simp [retryFrom, hs2, expectedRetryTrace]
  | succ k ih =>
    intro a rem s hrem hf hs
    match rem, hrem with
    | rem + 1, hrem =>
      have h0 := hf 0 (Nat.succ_pos k)
      cases hc : call a with
      | success s2 =>
        rw [Nat.add_zero] at h0
        rw [hc] at h0
        simp [isFailure] at h0
      | failure e =>
        have hr0 : ¬ rem = 0 := by omega
        have ihx := ih (a + 1) rem s (by omega)
          (fun j hj => by
            have := hf (j + 1) (by omega)
            rwa [show a + (j + 1) = a + 1 + j from by omega] at this)
          (by rwa [show a + (k + 1) = a + 1 + k from by omega] at hs)
        simp [retryFrom, hc, hr0, ihx, expectedRetryTrace]

lemma countCalls_expectedRetryTrace (rand : Nat → ℚ) :
    ∀ k a, countCalls (expectedRetryTrace rand a k) = k + 1 := by
  intro k
  induction k with
  | zero => intro a; rfl
  | succ k ih =>
    intro a
    have := ih (a + 1)
    simp [expectedRetryTrace, countCalls, List.countP_cons] at this ⊢
    omega

lemma backoffs_expectedRetryTrace (rand : Nat → ℚ) :
    ∀ k a, backoffs (expectedRetryTrace rand a k) =
      (List.range k).map (fun j => (2 : ℚ) ^ (a + j) + rand (a + j)) := by
  intro k
  induction k with
  | zero => intro a; rfl
  | succ k ih =>
    intro a
    have hcons : backoffs (RetryStep.attemptCall a ::
        RetryStep.backoff ((2 : ℚ) ^ a + rand a) :: expectedRetryTrace rand (a + 1) k) =
        ((2 : ℚ) ^ a + rand a) :: backoffs (expectedRetryTrace rand (a + 1) k) := by
      simp [backoffs]
    rw [expectedRetryTrace, hcons, ih (a + 1), List.range_succ_eq_map,
      List.map_cons, List.map_map]
    simp only [List.cons.injEq, Nat.add_zero]
    refine ⟨trivial, ?_⟩
    apply List.map_congr_left
    intro j hj
    have hj2 : a + 1 + j = a + (j + 1) := by omega
    simp [Function.comp, hj2]

lemma retryFrom_succ (call : Nat → AIResult) (rand : Nat → ℚ) (i rem : Nat)
    (e : String) (hc : call i = .failure e) (hrem : rem ≠ 0) :
    retryFrom call rand i (rem + 1) =
      ((retryFrom call rand (i + 1) rem).1,
        .attemptCall i :: .backoff ((2 : ℚ) ^ i + rand i) ::
          (retryFrom call rand (i + 1) rem).2) := by
  conv_lhs => rw [retryFrom]
  simp only [hc]
  rw [if_neg hrem]

lemma retryFrom_fail (call : Nat → AIResult) (rand : Nat → ℚ)
    (hf : ∀ i, isFailure (call i) = true) :
    ∀ d a, (retryFrom call rand a (d + 1)).1 = .error (failureMsg (call (a + d))) ∧
      countCalls (retryFrom call rand a (d + 1)).2 = d + 1 := by
  intro d
  induction d with
  | zero =>
    intro a
    have h0 := hf a
    cases hc : call a with
    | success s => rw [hc] at h0; simp [isFailure] at h0
    | failure e => simp [retryFrom, hc, failureMsg, countCalls]
  | succ d ih =>
    intro a
    have h0 := hf a
    cases hc : call a with
    | success s => rw [hc] at h0; simp [isFailure] at h0
    | failure e =>
      obtain ⟨ih1, ih2⟩ := ih (a + 1)
      rw [retryFrom_succ call rand a (d + 1) e hc (by omega)]
      constructor
      · rw [show a + (d + 1) = a + 1 + d from by omega]
        exact ih1
      · simp only [countCalls, List.countP_cons] at ih2 ⊢
        simp [ih2]

/-! ### Per-file loop and task trace lemmas -/

lemma summaryLoop_steps (oracle : String → Nat → AIResult) (rand : String → Nat → ℚ) :
    ∀ files s, s ∈ (summaryLoop oracle rand files).1 →
      (∃ f ∈ files, s = Step.emit .status (summarizingMsg f.filename)) ∨
      (∃ f ∈ files, s = Step.invoke (summaryPrompt f) 3) ∨ s = Step.pause 5 := by
  intro files
  induction files with
  | nil => intro s hs; simp [summaryLoop] at hs
  | cons f rest ih =>
    intro s hs
    simp only [summaryLoop] at hs
    rcases hc : callAI oracle rand (summaryPrompt f) 3 with e | str <;> rw [hc] at hs <;>
      simp only [List.mem_cons, List.not_mem_nil, or_false] at hs
    · rcases hs with h | h
      · exact Or.inl ⟨f, by simp, h⟩
      · exact Or.inr (Or.inl ⟨f, by simp, h⟩)
    · rcases hs with h | h | h | h
      · exact Or.inl ⟨f, by simp, h⟩
      · exact Or.inr (Or.inl ⟨f, by simp, h⟩)
      · exact Or.inr (Or.inr h)
      · rcases ih s h with ⟨g, hg, hgs⟩ | ⟨g, hg, hgs⟩ | hps
        · exact Or.inl ⟨g, by simp [hg], hgs⟩
        · exact Or.inr (Or.inl ⟨g, by simp [hg], hgs⟩)
        · exact Or.inr (Or.inr hps)

lemma summaryLoop_success (oracle : String → Nat → AIResult) (rand : String → Nat → ℚ)
    (sm : FileInfo → String) :
    ∀ files, (∀ f ∈ files, callAI oracle rand (summaryPrompt f) 3 = .ok (sm f)) →
      summaryLoop oracle rand files =
        (files.flatMap perFileSteps,
          .ok (files.map fun f => taggedSummary f.filename (sm f))) := by
  intro files
  induction files with
  | nil => intro hok; rfl
  | cons f rest ih =>
    intro hok
    have hf := hok f (by simp)
    have hrest := ih fun g hg => hok g (by simp [hg])
    simp only [summaryLoop, hf, hrest, List.flatMap_cons, List.map_cons]
    rfl

lemma taskTrace_ok (oracle : String → Nat → AIResult) (rand : String → Nat → ℚ)
    (sm : FileInfo → String) (files : List FileInfo)
    (hok : ∀ f ∈ files, callAI oracle rand (summaryPrompt f) 3 = .ok (sm f)) :
    taskTrace oracle rand files =
      Step.emit .status startMsg :: files.flatMap perFileSteps ++
        ([Step.emit .status allSummariesMsg,
          Step.emit .status (tokenMsg (count_tokens (consolidatedPrompt sm files))),
          Step.invoke (consolidatedPrompt sm files) 5] ++
          finalSteps (callAI oracle rand (consolidatedPrompt sm files) 5)) := by
  simp only [taskTrace, summaryLoop_success oracle rand sm files hok]
  rcases hc : callAI oracle rand (consolidatedPrompt sm files) 5 with e | r
  · rw [show consolidatedPrompt sm files =
        formatPrompt (String.intercalate "\n\n"
          (files.map fun f => taggedSummary f.filename (sm f))) from rfl] at hc
    simp [consolidatedPrompt, hc, finalSteps]
  · rw [show consolidatedPrompt sm files =
        formatPrompt (String.intercalate "\n\n"
          (files.map fun f => taggedSummary f.filename (sm f))) from rfl] at hc
    by_cases hr : r = "" <;> simp [consolidatedPrompt, hc, finalSteps, hr]

lemma taskTrace_invoke (oracle : String → Nat → AIResult) (rand : String → Nat → ℚ)
    (files : List FileInfo) (pr : String) (n : Nat)
    (h : Step.invoke pr n ∈ taskTrace oracle rand files) :
    (n = 3 ∧ ∃ f ∈ files, pr = summaryPrompt f) ∨
    (n = 5 ∧ ∃ c, pr = formatPrompt c) := by
  simp only [taskTrace, List.mem_cons, List.mem_append] at h
  rcases h with (h | h) | h
  · exact absurd h (by simp)
  · rcases summaryLoop_steps oracle rand files _ h with ⟨f, hf, hfs⟩ | ⟨f, hf, hfs⟩ | hps
    · exact absurd hfs (by simp)
    · simp only [Step.invoke.injEq] at hfs
      exact Or.inl ⟨hfs.2, f, hf, hfs.1⟩
    · exact absurd hps (by simp)
  · split at h
    · simp at h
    · simp only [List.mem_append, List.mem_cons, List.not_mem_nil, or_false] at h
      rcases h with (h | h | h) | h
      · exact absurd h (by simp)
      · exact absurd h (by simp)
      · simp only [Step.invoke.injEq] at h
        exact Or.inr ⟨h.2, _, h.1⟩
      · split at h
        · simp at h
        · split at h <;> simp at h

/-! ### Claims C4 and C5: retry wrapper success and exhaustion -/

/-- C4: if the underlying call fails on the first `k` attempts (`k < N`) and
succeeds on attempt `k`, `run_openai_with_retry` returns the success value,
performs exactly `k + 1` attempts, sleeps `2^attempt + uniform(0,1)` between
consecutive attempts, and the minimum wait `2^attempt` is strictly
increasing. -/
theorem retry_success_path (call : Nat → AIResult) (rand : Nat → ℚ)
    (N k : Nat) (s : String)
    (hkN : k < N)
    (hf : ∀ j, j < k → isFailure (call j) = true)
    (hs : call k = AIResult.success s)
    (hrand : ∀ i, 0 ≤ rand i ∧ rand i ≤ 1) :
    run_openai_with_retry call rand N = (.ok s, expectedRetryTrace rand 0 k) ∧
    countCalls (run_openai_with_retry call rand N).2 = k + 1 ∧
    backoffs (run_openai_with_retry call rand N).2 =
      (List.range k).map (fun j => (2 : ℚ) ^ j + rand j) ∧
    (∀ j, (2 : ℚ) ^ j ≤ (2 : ℚ) ^ j + rand j) ∧
    (∀ i j, i < j → (2 : ℚ) ^ i < (2 : ℚ) ^ j) := by
  have hmain : retryFrom call rand 0 N = (.ok s, expectedRetryTrace rand 0 k) :=
    retryFrom_ok call rand k 0 N s hkN (by simpa using hf) (by simpa using hs)
  refine ⟨hmain, ?_, ?_, ?_, ?_⟩
  · rw [run_openai_with_retry, hmain]
    exact countCalls_expectedRetryTrace rand k 0
  · rw [run_openai_with_retry, hmain]
    simpa using backoffs_expectedRetryTrace rand k 0
  · intro j
    have := (hrand j).1
    linarith
  · intro i j hij
    exact pow_lt_pow_right₀ (by norm_num) hij

/-- Witness for C4 at a concrete run: two failures then a success with
`max_attempts = 4` returns the success value after exactly 3 attempts. -/
theorem retry_success_path_witness :
    (run_openai_with_retry
        (fun i => if i < 2 then .failure "boom" else .success "ok")
        (fun _ => (1 : ℚ) / 2) 4).1 = .ok "ok" ∧
    countCalls (run_openai_with_retry
        (fun i => if i < 2 then .failure "boom" else .success "ok")
        (fun _ => (1 : ℚ) / 2) 4).2 = 3 := by
  obtain ⟨h1, h2, _⟩ := retry_success_path
    (fun i => if i < 2 then .failure "boom" else .success "ok")
    (fun _ => (1 : ℚ) / 2) 4 2 "ok" (by omega) (by decide) (by decide)
    (fun i => by norm_num)
  exact ⟨by rw [h1], h2⟩

/-- C5: if the underlying call fails on every attempt, the wrapper performs
exactly `max_attempts` attempts and propagates the last failure; and within
the Orchestrator every retry-wrapper invocation uses `max_attempts = 3` on a
per-file summarization prompt or `max_attempts = 5` on the formatted final
consolidation prompt. -/
theorem retry_exhaustion_and_invocations (call : Nat → AIResult) (rand : Nat → ℚ)
    (N : Nat) (hN : 1 ≤ N) (hf : ∀ i, isFailure (call i) = true) :
    (run_openai_with_retry call rand N).1 = .error (failureMsg (call (N - 1))) ∧
    countCalls (run_openai_with_retry call rand N).2 = N ∧
    (∀ (oracle : String → Nat → AIResult) (rand2 : String → Nat → ℚ)
        (files : List FileInfo) (pr : String) (n : Nat),
      Step.invoke pr n ∈ taskTrace oracle rand2 files →
        (n = 3 ∧ ∃ f ∈ files, pr = summaryPrompt f) ∨
        (n = 5 ∧ ∃ c, pr = formatPrompt c)) := by
  obtain ⟨d, rfl⟩ : ∃ d, N = d + 1 := ⟨N - 1, by omega⟩
  obtain ⟨h1, h2⟩ := retryFrom_fail call rand hf d 0
  refine ⟨?_, ?_, ?_⟩
  · rw [run_openai_with_retry]
    simpa using h1
  · rw [run_openai_with_retry]
    simpa using h2
  · intro oracle rand2 files pr n hmem
    exact taskTrace_invoke oracle rand2 files pr n hmem

/-- Witness for C5 at a concrete run: a call that always fails, with
`max_attempts = 3`, yields the propagated failure after exactly 3 attempts. -/
theorem retry_exhaustion_witness :
    (run_openai_with_retry (fun _ => .failure "down") (fun _ => (1 : ℚ) / 2) 3).1 =
      .error "down" ∧
    countCalls (run_openai_with_retry (fun _ => .failure "down")
      (fun _ => (1 : ℚ) / 2) 3).2 = 3 := by
  obtain ⟨h1, h2, _⟩ := retry_exhaustion_and_invocations
    (fun _ => .failure "down") (fun _ => (1 : ℚ) / 2) 3 (by omega) (fun i => rfl)
  refine ⟨?_, h2⟩
  rw [h1]
  rfl

/-! ### Job state fold lemmas -/

lemma foldl_applyStep_status (l : List Step) :
    ∀ j : Job, (l.foldl applyStep j).status_updates = j.status_updates ++ emitsOf l := by
  induction l with
  | nil => intro j; simp [emitsOf]
  | cons s l ih =>
    intro j
    rw [List.foldl_cons, ih]
    cases s <;> simp [applyStep, emitsOf, List.filterMap_cons, List.append_assoc]

lemma foldl_applyStep_report (l : List Step) :
    ∀ j : Job, (∀ r, Step.store r ∉ l) →
      (l.foldl applyStep j).report_content = j.report_content := by
  induction l with
  | nil => intro j _; rfl
  | cons s l ih =>
    intro j hns
    rw [List.foldl_cons, ih _ fun r hr => hns r (by simp [hr])]
    cases s with
    | store r => exact absurd (by simp) (hns r)
    | emit k c => rfl
    | invoke p n => rfl
    | pause t => rfl
    | markComplete => rfl

lemma foldl_applyStep_complete_false (l : List Step) :
    ∀ j : Job, Step.markComplete ∉ l → j.is_complete = false →
      (l.foldl applyStep j).is_complete = false := by
  induction l with
  | nil => intro j _ hj; exact hj
  | cons s l ih =>
    intro j hnm hj
    rw [List.foldl_cons]
    refine ih _ (fun hmem => hnm (by simp [hmem])) ?_
    cases s with
    | markComplete => exact absurd (by simp) hnm
    | emit k c => exact hj
    | invoke p n => exact hj
    | pause t => exact hj
    | store r => exact hj

lemma applyStep_complete_mono (j : Job) (s : Step) (h : j.is_complete = true) :
    (applyStep j s).is_complete = true := by
  cases s <;> simp [applyStep, h]

lemma summaryLoop_no_mark (oracle : String → Nat → AIResult)
    (rand : String → Nat → ℚ) (files : List FileInfo) :
    Step.markComplete ∉ (summaryLoop oracle rand files).1 := by
  intro hmem
  rcases summaryLoop_steps oracle rand files _ hmem with ⟨f, _, hf⟩ | ⟨f, _, hf⟩ | hf <;>
    simp at hf

lemma summaryLoop_no_store (oracle : String → Nat → AIResult)
    (rand : String → Nat → ℚ) (files : List FileInfo) (r : String) :
    Step.store r ∉ (summaryLoop oracle rand files).1 := by
  intro hmem
  rcases summaryLoop_steps oracle rand files _ hmem with ⟨f, _, hf⟩ | ⟨f, _, hf⟩ | hf <;>
    simp at hf

lemma taskTrace_split (oracle : String → Nat → AIResult) (rand : String → Nat → ℚ)
    (files : List FileInfo) :
    ∃ body, taskTrace oracle rand files = body ++ [Step.markComplete] ∧
      Step.markComplete ∉ body := by
  have hp1 := summaryLoop_no_mark oracle rand files
  have hsplit : ∀ X : List Step, Step.markComplete ∉ X →
      Step.markComplete ∉ Step.emit .status startMsg ::
        (summaryLoop oracle rand files).1 ++ X := by
    intro X hX h
    rcases List.mem_cons.mp h with h | h
    · simp at h
    rcases List.mem_append.mp h with h | h
    · exact hp1 h
    · exact hX h
  cases hres : (summaryLoop oracle rand files).2 with
  | error e =>
    refine ⟨Step.emit .status startMsg :: (summaryLoop oracle rand files).1 ++
      [Step.emit .error (errorWrap e)], by simp [taskTrace, hres], hsplit _ (by simp)⟩
  | ok summaries =>
    cases hfin : callAI oracle rand
        (formatPrompt (String.intercalate "\n\n" summaries)) 5 with
    | error e =>
      refine ⟨Step.emit .status startMsg :: (summaryLoop oracle rand files).1 ++
        ([Step.emit .status allSummariesMsg,
          Step.emit .status (tokenMsg (count_tokens
            (formatPrompt (String.intercalate "\n\n" summaries)))),
          Step.invoke (formatPrompt (String.intercalate "\n\n" summaries)) 5] ++
          [Step.emit .error (errorWrap e)]), by simp [taskTrace, hres, hfin],
        hsplit _ (by simp)⟩
    | ok r =>
      by_cases hr : r = ""
      · refine ⟨Step.emit .status startMsg :: (summaryLoop oracle rand files).1 ++
          ([Step.emit .status allSummariesMsg,
            Step.emit .status (tokenMsg (count_tokens
              (formatPrompt (String.intercalate "\n\n" summaries)))),
            Step.invoke (formatPrompt (String.intercalate "\n\n" summaries)) 5] ++
            [Step.emit .error (errorWrap emptyRespMsg)]),
          by simp [taskTrace, hres, hfin, hr], hsplit _ (by simp)⟩
      · refine ⟨Step.emit .status startMsg :: (summaryLoop oracle rand files).1 ++
          ([Step.emit .status allSummariesMsg,
            Step.emit .status (tokenMsg (count_tokens
              (formatPrompt (String.intercalate "\n\n" summaries)))),
            Step.invoke (formatPrompt (String.intercalate "\n\n" summaries)) 5] ++
            [Step.store r, Step.emit .report reportDoneMsg]),
          by simp [taskTrace, hres, hfin, hr], hsplit _ (by simp)⟩

/-! ### Claim C2: completion flag lifecycle -/

/-- C2: the completion flag is false at creation (Upload inserts the job with
`is_complete = False`), the background task's trace ends with exactly one
completion mark — so along the run the flag stays false on every proper
prefix and is true at the end, whether the pipeline succeeded or failed —
and no step ever resets a true flag to false. -/
theorem completion_flag_lifecycle (oracle : String → Nat → AIResult)
    (rand : String → Nat → ℚ) (job : Job) (h0 : job.is_complete = false) :
    (∃ body, taskTrace oracle rand job.files = body ++ [Step.markComplete] ∧
      Step.markComplete ∉ body) ∧
    (∀ n, n < (taskTrace oracle rand job.files).length →
      (((taskTrace oracle rand job.files).take n).foldl applyStep job).is_complete
        = false) ∧
    (process_report_task oracle rand job).1.is_complete = true ∧
    (∀ (j : Job) (s : Step), j.is_complete = true →
      (applyStep j s).is_complete = true) ∧
    (∀ (store : Store) (fresh : String) (extract : UploadFile → String)
        (f1 f2 f3 f4 : Option UploadFile) (st : Store) (id2 : String)
        (sch : List String),
      upload_files_for_processing store fresh extract f1 f2 f3 f4 =
        .ok (st, id2, sch) →
      ∃ fs, st = (fresh, Job.mk fs [] false none) :: store) := by
  obtain ⟨body, hbody, hnm⟩ := taskTrace_split oracle rand job.files
  refine ⟨⟨body, hbody, hnm⟩, ?_, ?_, ?_, ?_⟩
  · intro n hn
    have hlen : (taskTrace oracle rand job.files).length = body.length + 1 := by
      rw [hbody]; simp
    have hle : n ≤ body.length := by omega
    have htake : (taskTrace oracle rand job.files).take n = body.take n := by
      rw [hbody, List.take_append_eq_append_take,
        Nat.sub_eq_zero_of_le hle, List.take_zero, List.append_nil]
    rw [htake]
    refine foldl_applyStep_complete_false _ _ (fun hmem => ?_) h0
    exact hnm (List.take_subset n body hmem)
  · simp only [process_report_task]
    rw [hbody, List.foldl_append]
    simp [applyStep]
  · exact fun j s h => applyStep_complete_mono j s h
  · intro store fresh extract f1 f2 f3 f4 st id2 sch heq
    by_cases hE : (collectFiles f1 f2 f3 f4).isEmpty
    · simp [upload_files_for_processing, hE] at heq
    · simp only [upload_files_for_processing, hE, Bool.false_eq_true,
        if_false, Except.ok.injEq, Prod.mk.injEq] at heq
      exact ⟨(collectFiles f1 f2 f3 f4).map fun f => FileInfo.mk f.filename (extract f),
        heq.1.symm⟩

/-- Witness for C2 at a concrete run: a one-file job with an always-succeeding
oracle starts incomplete and ends complete. -/
theorem completion_flag_lifecycle_witness :
    (Job.mk [⟨"a.txt", "x"⟩] [] false none).is_complete = false ∧
    (process_report_task (fun _ _ => .success "R") (fun _ _ => (0 : ℚ))
      (Job.mk [⟨"a.txt", "x"⟩] [] false none)).1.is_complete = true := by
  obtain ⟨-, -, h3, -, -⟩ := completion_flag_lifecycle (fun _ _ => .success "R")
    (fun _ _ => (0 : ℚ)) (Job.mk [⟨"a.txt", "x"⟩] [] false none) rfl
  exact ⟨rfl, h3⟩

/-! ### Event extraction lemmas -/

lemma emitsOf_nil : emitsOf [] = [] := rfl

lemma emitsOf_emit (k : EventKind) (c : String) (l : List Step) :
    emitsOf (Step.emit k c :: l) = Event.mk k c :: emitsOf l := by
  simp [emitsOf]

lemma emitsOf_invoke (p : String) (n : Nat) (l : List Step) :
    emitsOf (Step.invoke p n :: l) = emitsOf l := by
  simp [emitsOf]

lemma emitsOf_pause (t : ℚ) (l : List Step) :
    emitsOf (Step.pause t :: l) = emitsOf l := by
  simp [emitsOf]

lemma emitsOf_store (r : String) (l : List Step) :
    emitsOf (Step.store r :: l) = emitsOf l := by
  simp [emitsOf]

lemma emitsOf_mark (l : List Step) :
    emitsOf (Step.markComplete :: l) = emitsOf l := by
  simp [emitsOf]

lemma emitsOf_append (l1 l2 : List Step) :
    emitsOf (l1 ++ l2) = emitsOf l1 ++ emitsOf l2 := by
  simp [emitsOf, List.filterMap_append]

lemma emitsOf_perFile (files : List FileInfo) :
    emitsOf (files.flatMap perFileSteps) =
      files.map fun f => Event.mk .status (summarizingMsg f.filename) := by
  induction files with
  | nil => rfl
  | cons f rest ih =>
    rw [List.flatMap_cons, emitsOf_append, ih]
    rfl

lemma flatMap_perFile_no_store (files : List FileInfo) (r : String) :
    Step.store r ∉ files.flatMap perFileSteps := by
  simp [List.mem_flatMap, perFileSteps]

lemma filter_report_status_map (files : List FileInfo) :
    ((files.map fun f => Event.mk .status (summarizingMsg f.filename)).filter
      fun e => e.kind == EventKind.report) = [] := by
  induction files with
  | nil => rfl
  | cons f rest ih => simp [List.filter_cons, ih]

/-! ### Claim C1: the report event and the stored report text -/

/-- Counterexample to C1 as stated: on a successful one-file run the job's
single `report`-kind event carries the fixed message
`"Report content generated."`, not the stored report text `"R"` that Download
will render. -/
theorem report_event_content_counterexample :
    Event.mk .report reportDoneMsg ∈
      (process_report_task (fun _ _ => .success "R") (fun _ _ => (0 : ℚ))
        (Job.mk [⟨"a.txt", "x"⟩] [] false none)).1.status_updates ∧
    (process_report_task (fun _ _ => .success "R") (fun _ _ => (0 : ℚ))
      (Job.mk [⟨"a.txt", "x"⟩] [] false none)).1.report_content = some "R" ∧
    ¬ (∀ e ∈ (process_report_task (fun _ _ => .success "R") (fun _ _ => (0 : ℚ))
        (Job.mk [⟨"a.txt", "x"⟩] [] false none)).1.status_updates,
        e.kind = EventKind.report →
          some e.content =
            (process_report_task (fun _ _ => .success "R") (fun _ _ => (0 : ℚ))
              (Job.mk [⟨"a.txt", "x"⟩] [] false none)).1.report_content) := by
  refine ⟨by decide, by decide, ?_⟩
  decide

/-- C1 as amended: on a successful run exactly one `report`-kind event is
appended and its content is the fixed message `"Report content generated."`,
while the full final report text is stored as the job's report content and is
what Download renders and returns. -/
theorem report_event_fixed_message (oracle : String → Nat → AIResult)
    (rand : String → Nat → ℚ) (job : Job) (jid : String)
    (sm : FileInfo → String) (r : String)
    (h0 : job.status_updates = []) (h1 : job.report_content = none)
    (hloop : ∀ f ∈ job.files, callAI oracle rand (summaryPrompt f) 3 = .ok (sm f))
    (hfinal : callAI oracle rand (consolidatedPrompt sm job.files) 5 = .ok r)
    (hr : r ≠ "") :
    ((process_report_task oracle rand job).1.status_updates.filter
      fun e => e.kind == EventKind.report) = [Event.mk .report reportDoneMsg] ∧
    (process_report_task oracle rand job).1.report_content = some r ∧
    download_report [(jid, (process_report_task oracle rand job).1)] jid =
      .ok ⟨"consolidated_security_report_" ++ jid.take 8 ++ ".docx",
        create_docx_report r⟩ := by
  have htr := taskTrace_ok oracle rand sm job.files hloop
  have hfs : finalSteps (callAI oracle rand (consolidatedPrompt sm job.files) 5) =
      [Step.store r, Step.emit .report reportDoneMsg, Step.markComplete] := by
    rw [hfinal]
    simp [finalSteps, hr]
  have hcontent : (process_report_task oracle rand job).1.report_content = some r := by
    have hB : taskTrace oracle rand job.files =
        (Step.emit .status startMsg :: job.files.flatMap perFileSteps ++
          [Step.emit .status allSummariesMsg,
           Step.emit .status (tokenMsg (count_tokens (consolidatedPrompt sm job.files))),
           Step.invoke (consolidatedPrompt sm job.files) 5]) ++
          [Step.store r, Step.emit .report reportDoneMsg, Step.markComplete] := by
      rw [htr, hfs]
      simp [List.append_assoc]
    simp only [process_report_task]
    rw [hB, List.foldl_append]
    simp [applyStep]
  refine ⟨?_, hcontent, ?_⟩
  · simp only [process_report_task]
    rw [foldl_applyStep_status, h0, List.nil_append, htr, hfs]
    simp only [emitsOf_emit, emitsOf_append, emitsOf_perFile, emitsOf_invoke,
      emitsOf_store, emitsOf_mark, emitsOf_nil]
    simp [List.filter_cons, List.filter_append, filter_report_status_map]
  · have hg : getJob [(jid, (process_report_task oracle rand job).1)] jid =
        some (process_report_task oracle rand job).1 := by
      simp [getJob]
    simp [download_report, hg, hcontent, hr]

/-- Witness for C1's amended statement on a concrete successful run. -/
theorem report_event_fixed_message_witness :
    ((process_report_task (fun _ _ => .success "R") (fun _ _ => (0 : ℚ))
        (Job.mk [⟨"a.txt", "x"⟩] [] false none)).1.status_updates.filter
      fun e => e.kind == EventKind.report) = [Event.mk .report reportDoneMsg] ∧
    (process_report_task (fun _ _ => .success "R") (fun _ _ => (0 : ℚ))
      (Job.mk [⟨"a.txt", "x"⟩] [] false none)).1.report_content = some "R" := by
  obtain ⟨hfil, hcon, -⟩ := report_event_fixed_message
    (fun _ _ => .success "R") (fun _ _ => (0 : ℚ))
    (Job.mk [⟨"a.txt", "x"⟩] [] false none) "abcdefghij" (fun _ => "R") "R"
    rfl rfl
    (fun f hf => by rw [List.mem_singleton] at hf; subst hf; rfl)
    rfl (by decide)
  exact ⟨hfil, hcon⟩

/-! ### Claim C6: empty final response -/

/-- C6: if the final consolidation call returns an empty string the job fails
with the distinct content-filter error: an `error`-kind event with the
readable message is the last event appended, no report text is ever stored,
Download keeps answering 404, and the job is still marked complete. -/
theorem empty_final_response (oracle : String → Nat → AIResult)
    (rand : String → Nat → ℚ) (job : Job) (jid : String) (sm : FileInfo → String)
    (h1 : job.report_content = none)
    (hloop : ∀ f ∈ job.files, callAI oracle rand (summaryPrompt f) 3 = .ok (sm f))
    (hfinal : callAI oracle rand (consolidatedPrompt sm job.files) 5 = .ok "") :
    (∃ pre, (process_report_task oracle rand job).1.status_updates =
      pre ++ [Event.mk .error (errorWrap emptyRespMsg)]) ∧
    (process_report_task oracle rand job).1.report_content = none ∧
    (process_report_task oracle rand job).1.is_complete = true ∧
    download_report [(jid, (process_report_task oracle rand job).1)] jid =
      .error 404 := by
  have htr := taskTrace_ok oracle rand sm job.files hloop
  have hfs : finalSteps (callAI oracle rand (consolidatedPrompt sm job.files) 5) =
      [Step.emit .error (errorWrap emptyRespMsg), Step.markComplete] := by
    rw [hfinal]
    simp [finalSteps]
  have hcontent : (process_report_task oracle rand job).1.report_content = none := by
    simp only [process_report_task]
    rw [foldl_applyStep_report, h1]
    intro r hmem
    rw [htr, hfs] at hmem
    rcases List.mem_cons.mp hmem with h | h
    · simp at h
    rcases List.mem_append.mp h with h | h
    · exact flatMap_perFile_no_store job.files r h
    · simp at h
  have hcomplete : (process_report_task oracle rand job).1.is_complete = true := by
    obtain ⟨body, hbody, -⟩ := taskTrace_split oracle rand job.files
    simp only [process_report_task]
    rw [hbody, List.foldl_append]
    simp [applyStep]
  refine ⟨?_, hcontent, hcomplete, ?_⟩
  · refine ⟨job.status_updates ++ (Event.mk .status startMsg ::
      (job.files.map fun f => Event.mk .status (summarizingMsg f.filename)) ++
      [Event.mk .status allSummariesMsg,
       Event.mk .status (tokenMsg (count_tokens (consolidatedPrompt sm job.files)))]),
      ?_⟩
    simp only [process_report_task]
    rw [foldl_applyStep_status, htr, hfs]
    simp only [emitsOf_emit, emitsOf_append, emitsOf_perFile, emitsOf_invoke,
      emitsOf_store, emitsOf_mark, emitsOf_nil]
    simp [List.append_assoc]
  · have hg : getJob [(jid, (process_report_task oracle rand job).1)] jid =
        some (process_report_task oracle rand job).1 := by
      simp [getJob]
    simp [download_report, hg, hcontent]

/-- Witness for C6 on a concrete run whose final call returns `""`. -/
theorem empty_final_response_witness :
    (process_report_task (fun _ _ => .success "") (fun _ _ => (0 : ℚ))
      (Job.mk [⟨"a.txt", "x"⟩] [] false none)).1.report_content = none ∧
    (process_report_task (fun _ _ => .success "") (fun _ _ => (0 : ℚ))
      (Job.mk [⟨"a.txt", "x"⟩] [] false none)).1.is_complete = true ∧
    download_report [("j1", (process_report_task (fun _ _ => .success "")
      (fun _ _ => (0 : ℚ)) (Job.mk [⟨"a.txt", "x"⟩] [] false none)).1)] "j1" =
      .error 404 := by
  obtain ⟨-, h2, h3, h4⟩ := empty_final_response
    (fun _ _ => .success "") (fun _ _ => (0 : ℚ))
    (Job.mk [⟨"a.txt", "x"⟩] [] false none) "j1" (fun _ => "")
    rfl
    (fun f hf => by rw [List.mem_singleton] at hf; subst hf; rfl)
    rfl
  exact ⟨h2, h3, h4⟩

/-! ### Claim C3: orchestrator step order -/

/-- C3: when every per-file call succeeds, the task trace is exactly: the
starting status event; then, per document in order, a status event naming the
file, the retry-wrapper invocation on the summarization prompt with
`max_attempts = 3`, and a 5-second pause; then the consolidation status
event and the status event reporting the final prompt's token estimate; then
the invocation on the final prompt built from the tagged summaries; the
token estimate is length-of-text divided by 4. -/
theorem orchestrator_step_order (oracle : String → Nat → AIResult)
    (rand : String → Nat → ℚ) (files : List FileInfo) (sm : FileInfo → String)
    (hs : ∀ f ∈ files, callAI oracle rand (summaryPrompt f) 3 = .ok (sm f)) :
    (∃ rest, taskTrace oracle rand files =
      Step.emit .status startMsg :: files.flatMap perFileSteps ++
        ([Step.emit .status allSummariesMsg,
          Step.emit .status (tokenMsg (count_tokens (consolidatedPrompt sm files))),
          Step.invoke (consolidatedPrompt sm files) 5] ++ rest)) ∧
    (∀ f : FileInfo, perFileSteps f =
      [Step.emit .status (summarizingMsg f.filename),
       Step.invoke (summaryPrompt f) 3, Step.pause 5]) ∧
    consolidatedPrompt sm files = formatPrompt (String.intercalate "\n\n"
      (files.map fun f => taggedSummary f.filename (sm f))) ∧
    count_tokens (consolidatedPrompt sm files) =
      (consolidatedPrompt sm files).length / 4 := by
  exact ⟨⟨finalSteps (callAI oracle rand (consolidatedPrompt sm files) 5),
    taskTrace_ok oracle rand sm files hs⟩, fun f => rfl, rfl, rfl⟩

/-- Witness for C3 on a concrete two-file run. -/
theorem orchestrator_step_order_witness :
    ∃ rest, taskTrace (fun _ _ => .success "S") (fun _ _ => (0 : ℚ))
        [⟨"a.txt", "xx"⟩, ⟨"b.txt", "yy"⟩] =
      Step.emit .status startMsg ::
        ([⟨"a.txt", "xx"⟩, ⟨"b.txt", "yy"⟩] : List FileInfo).flatMap perFileSteps ++
        ([Step.emit .status allSummariesMsg,
          Step.emit .status (tokenMsg (count_tokens (consolidatedPrompt (fun _ => "S")
            [⟨"a.txt", "xx"⟩, ⟨"b.txt", "yy"⟩]))),
          Step.invoke (consolidatedPrompt (fun _ => "S")
            [⟨"a.txt", "xx"⟩, ⟨"b.txt", "yy"⟩]) 5] ++ rest) := by
  obtain ⟨h, -, -, -⟩ := orchestrator_step_order
    (fun _ _ => .success "S") (fun _ _ => (0 : ℚ))
    [⟨"a.txt", "xx"⟩, ⟨"b.txt", "yy"⟩] (fun _ => "S")
    (fun f hf => by
      rcases List.mem_cons.mp hf with h | h
      · subst h; rfl
      · rw [List.mem_singleton] at h; subst h; rfl)
  exact h

/-! ### Claim C7: progress stream protocol -/

lemma GrowsTo_ext : ∀ (snaps : List (List Event × Bool)) (prev final : List Event),
    GrowsTo prev snaps final → ∃ u, final = prev ++ u := by
  intro snaps
  induction snaps with
  | nil => intro prev final h; simp [GrowsTo] at h
  | cons head rest ih =>
    obtain ⟨evs, c⟩ := head
    intro prev final h
    cases c
    · simp only [GrowsTo] at h
      obtain ⟨⟨t, ht⟩, h2⟩ := h
      obtain ⟨u, hu⟩ := ih evs final h2
      exact ⟨t ++ u, by rw [hu, ht, List.append_assoc]⟩
    · simp only [GrowsTo] at h
      obtain ⟨⟨t, ht⟩, -, hfin⟩ := h
      exact ⟨t, by rw [hfin, ht]⟩

lemma event_generator_growsTo :
    ∀ (snaps : List (List Event × Bool)) (prev final : List Event),
      GrowsTo prev snaps final →
      event_generator snaps prev.length =
        ((final.drop prev.length).map StreamItem.event ++ [StreamItem.done], true) := by
  intro snaps
  induction snaps with
  | nil => intro prev final h; simp [GrowsTo] at h
  | cons head rest ih =>
    obtain ⟨evs, c⟩ := head
    intro prev final h
    cases c
    · simp only [GrowsTo] at h
      obtain ⟨⟨t, ht⟩, h2⟩ := h
      obtain ⟨u, hu⟩ := GrowsTo_ext rest evs final h2
      have hgen := ih evs final h2
      have e1 : evs.drop prev.length = t := by
        rw [ht]; exact List.drop_left _ _
      have e2 : final.drop evs.length = u := by
        rw [hu]; exact List.drop_left _ _
      have e3 : final.drop prev.length = t ++ u := by
        rw [hu, ht, List.append_assoc]; exact List.drop_left _ _
      rw [e2] at hgen
      simp only [event_generator, Bool.false_eq_true, if_false]
      rw [hgen, e1, e3]
      simp [List.map_append, List.append_assoc]
    · simp only [GrowsTo] at h
      obtain ⟨⟨t, ht⟩, hrest, hfin⟩ := h
      subst hrest
      subst hfin
      simp [event_generator]

/-- C7: a stream for an unknown job id fails with 404; for a known id, over
an append-only snapshot chain whose last poll observes the completion flag
true with final event list `final`, the stream yields every event exactly
once in append order from index 0, then one synthetic `done` item, and
terminates. -/
theorem stream_protocol (store : Store) (jid : String)
    (snaps : List (List Event × Bool)) (final : List Event) :
    (getJob store jid = none → stream_status store jid snaps = .error 404) ∧
    (getJob store jid ≠ none → GrowsTo [] snaps final →
      stream_status store jid snaps =
        .ok (final.map StreamItem.event ++ [StreamItem.done], true)) := by
  constructor
  · intro hg
    simp [stream_status, hg]
  · intro hg hgrow
    have hgen := event_generator_growsTo snaps [] final hgrow
    simp only [List.length_nil, List.drop_zero] at hgen
    cases hgj : getJob store jid with
    | none => exact absurd hgj hg
    | some j => simp [stream_status, hgj, hgen]

/-- Witness for C7: a two-poll snapshot chain replays both events from index
0 and closes with `done`; an unknown id gets 404. -/
theorem stream_protocol_witness :
    stream_status [("j1", Job.mk [] [] false none)] "j1"
      [([Event.mk .status "a"], false),
       ([Event.mk .status "a", Event.mk .report "b"], true)] =
      .ok ([StreamItem.event (Event.mk .status "a"),
            StreamItem.event (Event.mk .report "b"), StreamItem.done], true) ∧
    stream_status [("j1", Job.mk [] [] false none)] "nope"
      [([Event.mk .status "a"], false)] = .error 404 := by
  obtain ⟨h404, hok⟩ := stream_protocol [("j1", Job.mk [] [] false none)] "j1"
    [([Event.mk .status "a"], false),
     ([Event.mk .status "a", Event.mk .report "b"], true)]
    [Event.mk .status "a", Event.mk .report "b"]
  refine ⟨hok (by decide) ⟨⟨_, rfl⟩, ⟨_, rfl⟩, rfl, rfl⟩, ?_⟩
  obtain ⟨h404b, -⟩ := stream_protocol [("j1", Job.mk [] [] false none)] "nope"
    [([Event.mk .status "a"], false)] []
  exact h404b (by decide)

/-! ### Claim C8: upload validation and job creation -/

/-- C8: with zero usable files the upload fails with 400 and creates nothing;
with at least one file it creates a job with the extracted texts, an empty
event sequence, completion flag false and no report, schedules the background
task for the fresh id, and returns that id; the fresh id maps to the new job. -/
theorem upload_validation (store : Store) (fresh : String)
    (extract : UploadFile → String) (f1 f2 f3 f4 : Option UploadFile) :
    (collectFiles f1 f2 f3 f4 = [] →
      upload_files_for_processing store fresh extract f1 f2 f3 f4 = .error 400) ∧
    (collectFiles f1 f2 f3 f4 ≠ [] →
      upload_files_for_processing store fresh extract f1 f2 f3 f4 =
        .ok ((fresh, Job.mk ((collectFiles f1 f2 f3 f4).map fun f =>
            FileInfo.mk f.filename (extract f)) [] false none) :: store,
          fresh, [fresh])) ∧
    (∀ j : Job, getJob ((fresh, j) :: store) fresh = some j) := by
  refine ⟨?_, ?_, ?_⟩
  · intro hE
    simp [upload_files_for_processing, List.isEmpty_iff, hE]
  · intro hNE
    simp [upload_files_for_processing, List.isEmpty_iff, hNE]
  · intro j
    simp [getJob]

/-- Witness for C8: no files gives 400; one named file creates the fresh job
and schedules it. -/
theorem upload_validation_witness :
    upload_files_for_processing [] "id-1" (fun f => f.payload)
      none none none none = .error 400 ∧
    upload_files_for_processing [] "id-1" (fun f => f.payload)
      (some ⟨"a.txt", "hello"⟩) none none none =
      .ok ([("id-1", Job.mk [⟨"a.txt", "hello"⟩] [] false none)], "id-1", ["id-1"]) := by
  obtain ⟨h400, -, -⟩ := upload_validation [] "id-1" (fun f => f.payload)
    none none none none
  obtain ⟨-, hok, -⟩ := upload_validation [] "id-1" (fun f => f.payload)
    (some ⟨"a.txt", "hello"⟩) none none none
  exact ⟨h400 (by decide), hok (by decide)⟩

/-! ### Claim C9: download availability -/

/-- C9: Download 404s exactly when the job id is unknown or the job has no
(non-empty) stored report text; otherwise it returns the rendered document
under the filename built from the first 8 characters of the job id. -/
theorem download_404_iff (store : Store) (jid : String) :
    (download_report store jid = .error 404 ↔
      getJob store jid = none ∨
      ∃ j, getJob store jid = some j ∧
        (j.report_content = none ∨ j.report_content = some "")) ∧
    (∀ (j : Job) (r : String), getJob store jid = some j →
      j.report_content = some r → r ≠ "" →
      download_report store jid =
        .ok ⟨"consolidated_security_report_" ++ jid.take 8 ++ ".docx",
          create_docx_report r⟩) := by
  constructor
  · cases hg : getJob store jid with
    | none => simp [download_report, hg]
    | some j =>
      cases hc : j.report_content with
      | none => simp [download_report, hg, hc]
      | some r =>
        by_cases hr : r = ""
        · subst hr
          simp [download_report, hg, hc]
        · simp [download_report, hg, hc, hr]
  · intro j r hg hc hr
    simp [download_report, hg, hc, hr]

/-- Witness for C9: an in-progress job 404s; a finished job downloads under
the deterministic filename. -/
theorem download_404_iff_witness :
    download_report [("abcdefghij", Job.mk [] [] false none)] "abcdefghij" =
      .error 404 ∧
    download_report [("abcdefghij", Job.mk [] [] true (some "# T"))] "abcdefghij" =
      .ok ⟨"consolidated_security_report_abcdefgh.docx", create_docx_report "# T"⟩ := by
  obtain ⟨hiff, -⟩ := download_404_iff
    [("abcdefghij", Job.mk [] [] false none)] "abcdefghij"
  obtain ⟨-, hok⟩ := download_404_iff
    [("abcdefghij", Job.mk [] [] true (some "# T"))] "abcdefghij"
  refine ⟨hiff.mpr (Or.inr ⟨Job.mk [] [] false none, by decide, Or.inl rfl⟩), ?_⟩
  exact hok (Job.mk [] [] true (some "# T")) "# T" (by decide) rfl (by decide)

/-! ### Claim C10: report event implies stored content -/

lemma hasGoodContent_iff (j : Job) :
    hasGoodContent j = true ↔ ∃ r, j.report_content = some r ∧ r ≠ "" := by
  cases hc : j.report_content with
  | none => simp [hasGoodContent, hc]
  | some r => simp [hasGoodContent, hc, bne_iff_ne]

lemma safe_fold : ∀ (l : List Step) (j : Job),
    safeSteps (hasGoodContent j) l = true → reportImpliesContent j →
    ∀ n, reportImpliesContent ((l.take n).foldl applyStep j) := by
  intro l
  induction l with
  | nil =>
    intro j hs hI n
    simpa using hI
  | cons s rest ih =>
    intro j hs hI n
    cases n with
    | zero => simpa using hI
    | succ m =>
      rw [List.take_succ_cons, List.foldl_cons]
      cases s with
      | emit k c =>
        cases k with
        | report =>
          simp only [safeSteps, Bool.and_eq_true] at hs
          obtain ⟨hg, hrest⟩ := hs
          refine ih (applyStep j (Step.emit EventKind.report c)) hrest ?_ m
          intro _
          exact (hasGoodContent_iff (applyStep j (Step.emit EventKind.report c))).mp hg
        | status =>
          simp only [safeSteps] at hs
          refine ih (applyStep j (Step.emit EventKind.status c)) hs ?_ m
          rintro ⟨e, he, hk⟩
          rcases List.mem_append.mp he with he2 | he2
          · exact hI ⟨e, he2, hk⟩
          · rw [List.mem_singleton] at he2
            subst he2
            simp at hk
        | error =>
          simp only [safeSteps] at hs
          refine ih (applyStep j (Step.emit EventKind.error c)) hs ?_ m
          rintro ⟨e, he, hk⟩
          rcases List.mem_append.mp he with he2 | he2
          · exact hI ⟨e, he2, hk⟩
          · rw [List.mem_singleton] at he2
            subst he2
            simp at hk
        | done =>
          simp only [safeSteps] at hs
          refine ih (applyStep j (Step.emit EventKind.done c)) hs ?_ m
          rintro ⟨e, he, hk⟩
          rcases List.mem_append.mp he with he2 | he2
          · exact hI ⟨e, he2, hk⟩
          · rw [List.mem_singleton] at he2
            subst he2
            simp at hk
      | store r =>
        simp only [safeSteps, Bool.and_eq_true] at hs
        obtain ⟨hcond, hrest⟩ := hs
        refine ih (applyStep j (Step.store r)) hrest ?_ m
        intro hex
        have hIj := hI hex
        have hg : hasGoodContent j = true := (hasGoodContent_iff j).mpr hIj
        rw [hg] at hcond
        simp only [Bool.not_true, Bool.false_or] at hcond
        exact ⟨r, rfl, by simpa [bne_iff_ne] using hcond⟩
      | invoke p n2 =>
        simp only [safeSteps] at hs
        exact ih (applyStep j (Step.invoke p n2)) hs hI m
      | pause t =>
        simp only [safeSteps] at hs
        exact ih (applyStep j (Step.pause t)) hs hI m
      | markComplete =>
        simp only [safeSteps] at hs
        exact ih (applyStep j (Step.markComplete)) hs hI m

lemma safeSteps_append_neutral :
    ∀ (l : List Step) (b : Bool) (l2 : List Step),
      (∀ s ∈ l, neutralStep s = true) → safeSteps b (l ++ l2) = safeSteps b l2 := by
  intro l
  induction l with
  | nil => intro b l2 _; rfl
  | cons s rest ih =>
    intro b l2 h
    have hrest : ∀ t ∈ rest, neutralStep t = true :=
      fun t ht => h t (List.mem_cons_of_mem s ht)
    cases s with
    | emit k c =>
      cases k with
      | report =>
        exact absurd (h (Step.emit EventKind.report c) (by simp))
          (by simp [neutralStep])
      | status => simpa only [List.cons_append, safeSteps] using ih b l2 hrest
      | error => simpa only [List.cons_append, safeSteps] using ih b l2 hrest
      | done => simpa only [List.cons_append, safeSteps] using ih b l2 hrest
    | store r =>
      exact absurd (h (Step.store r) (by simp)) (by simp [neutralStep])
    | invoke p n => simpa only [List.cons_append, safeSteps] using ih b l2 hrest
    | pause t => simpa only [List.cons_append, safeSteps] using ih b l2 hrest
    | markComplete => simpa only [List.cons_append, safeSteps] using ih b l2 hrest

lemma summaryLoop_neutral (oracle : String → Nat → AIResult)
    (rand : String → Nat → ℚ) (files : List FileInfo) :
    ∀ s ∈ (summaryLoop oracle rand files).1, neutralStep s = true := by
  intro s hs
  rcases summaryLoop_steps oracle rand files s hs with ⟨f, -, hf⟩ | ⟨f, -, hf⟩ | hf <;>
    subst hf <;> rfl

lemma taskTrace_safe (oracle : String → Nat → AIResult) (rand : String → Nat → ℚ)
    (files : List FileInfo) :
    safeSteps false (taskTrace oracle rand files) = true := by
  have hneutral := summaryLoop_neutral oracle rand files
  cases hres : (summaryLoop oracle rand files).2 with
  | error e =>
    rw [show taskTrace oracle rand files =
        Step.emit .status startMsg :: (summaryLoop oracle rand files).1 ++
          [Step.emit .error (errorWrap e), Step.markComplete] from by
      simp [taskTrace, hres]]
    simp only [safeSteps]
    exact (safeSteps_append_neutral _ false _ hneutral).trans (by rfl)
  | ok summaries =>
    cases hfin : callAI oracle rand
        (formatPrompt (String.intercalate "\n\n" summaries)) 5 with
    | error e =>
      rw [show taskTrace oracle rand files =
          Step.emit .status startMsg :: (summaryLoop oracle rand files).1 ++
            ([Step.emit .status allSummariesMsg,
              Step.emit .status (tokenMsg (count_tokens
                (formatPrompt (String.intercalate "\n\n" summaries)))),
              Step.invoke (formatPrompt (String.intercalate "\n\n" summaries)) 5] ++
              [Step.emit .error (errorWrap e), Step.markComplete]) from by
        simp [taskTrace, hres, hfin]]
      simp only [safeSteps]
      exact (safeSteps_append_neutral _ false _ hneutral).trans (by rfl)
    | ok r =>
      by_cases hr : r = ""
      · rw [show taskTrace oracle rand files =
            Step.emit .status startMsg :: (summaryLoop oracle rand files).1 ++
              ([Step.emit .status allSummariesMsg,
                Step.emit .status (tokenMsg (count_tokens
                  (formatPrompt (String.intercalate "\n\n" summaries)))),
                Step.invoke (formatPrompt (String.intercalate "\n\n" summaries)) 5] ++
                [Step.emit .error (errorWrap emptyRespMsg), Step.markComplete]) from by
          simp [taskTrace, hres, hfin, hr]]
        simp only [safeSteps]
        exact (safeSteps_append_neutral _ false _ hneutral).trans (by rfl)
      · rw [show taskTrace oracle rand files =
            Step.emit .status startMsg :: (summaryLoop oracle rand files).1 ++
              ([Step.emit .status allSummariesMsg,
                Step.emit .status (tokenMsg (count_tokens
                  (formatPrompt (String.intercalate "\n\n" summaries)))),
                Step.invoke (formatPrompt (String.intercalate "\n\n" summaries)) 5] ++
                [Step.store r, Step.emit .report reportDoneMsg,
                 Step.markComplete]) from by
          simp [taskTrace, hres, hfin, hr]]
        simp only [safeSteps]
        exact (safeSteps_append_neutral _ false _ hneutral).trans
          (by simp [safeSteps, bne_iff_ne, hr])

/-- C10: starting from a freshly created job, at every point of the
background task's run a `report`-kind event in the event sequence implies a
non-empty stored report text (the event is appended only after the text is
stored), so a client that observes the report event can immediately download
the rendered document. -/
theorem report_event_implies_download_ready (oracle : String → Nat → AIResult)
    (rand : String → Nat → ℚ) (job : Job) (jid : String)
    (h0 : job.status_updates = []) (h1 : job.report_content = none) :
    (∀ n, reportImpliesContent
      (((taskTrace oracle rand job.files).take n).foldl applyStep job)) ∧
    ((∃ e ∈ (process_report_task oracle rand job).1.status_updates,
        e.kind = EventKind.report) →
      ∃ r, (process_report_task oracle rand job).1.report_content = some r ∧
        r ≠ "" ∧
        download_report [(jid, (process_report_task oracle rand job).1)] jid =
          .ok ⟨"consolidated_security_report_" ++ jid.take 8 ++ ".docx",
            create_docx_report r⟩) := by
  have hgc : hasGoodContent job = false := by simp [hasGoodContent, h1]
  have hsafe : safeSteps (hasGoodContent job)
      (taskTrace oracle rand job.files) = true := by
    rw [hgc]
    exact taskTrace_safe oracle rand job.files
  have hI : reportImpliesContent job := by
    rintro ⟨e, he, -⟩
    rw [h0] at he
    simp at he
  have hmain := safe_fold _ job hsafe hI
  refine ⟨hmain, ?_⟩
  intro hex
  have hfull := hmain (taskTrace oracle rand job.files).length
  rw [List.take_length] at hfull
  obtain ⟨r, hc, hr⟩ := hfull hex
  have hc2 : (process_report_task oracle rand job).1.report_content = some r := hc
  have hg : getJob [(jid, (process_report_task oracle rand job).1)] jid =
      some (process_report_task oracle rand job).1 := by
    simp [getJob]
  exact ⟨r, hc2, hr, by simp [download_report, hg, hc2, hr]⟩

/-- Witness for C10 on a concrete successful run that did emit a report
event. -/
theorem report_event_implies_download_ready_witness :
    ∃ r, (process_report_task (fun _ _ => .success "R") (fun _ _ => (0 : ℚ))
        (Job.mk [⟨"a.txt", "x"⟩] [] false none)).1.report_content = some r ∧
      r ≠ "" ∧
      download_report [("jobidjobid", (process_report_task (fun _ _ => .success "R")
        (fun _ _ => (0 : ℚ)) (Job.mk [⟨"a.txt", "x"⟩] [] false none)).1)]
        "jobidjobid" =
        .ok ⟨"consolidated_security_report_jobidjob.docx", create_docx_report r⟩ := by
  obtain ⟨-, h2⟩ := report_event_implies_download_ready
    (fun _ _ => .success "R") (fun _ _ => (0 : ℚ))
    (Job.mk [⟨"a.txt", "x"⟩] [] false none) "jobidjobid" rfl rfl
  exact h2 (by decide)

end RepoHealth
